import Mathlib

/-!
Verification of the multi-account proxy runtime of `copilot-api`.

The development shallowly embeds the parts of the source relevant to the
frozen claims:

* `src/console/account-store.ts` — accounts, API-key generation, pool config;
* `src/console/instance-manager.ts` — instance registry, token lifecycle,
  `countTokensHandler`, `completionsHandler` error paths;
* `src/console/load-balancer.ts` — `selectAccount` with the three strategies
  and the shared round-robin cursor;
* `src/console/index.ts` — `proxyAuth` and `withPoolRetry`;
* `src/services/copilot/create-responses.ts` — `translateStream`.

Conventions of the embedding: network calls, the on-disk store, the system
clock and random byte strings are parameters (`Except` results for calls that
can throw, plain values for generated randomness); module-level mutable state
(the instance map, the active `setInterval` handles, the round-robin cursor)
is threaded explicitly; TypeScript `undefined` on an optional field is
`Option.none`; JavaScript numbers that the code only adds, compares and
divides are embedded as `Int`/`Rat`.
-/

/-- Account record of `account-store.ts` (`interface Account`). -/
structure Account where
  id : String
  name : String
  githubToken : String
  accountType : String
  apiKey : String
  enabled : Bool
  createdAt : String
  priority : Int
deriving DecidableEq, Repr

/-- Strategy union type of `load-balancer.ts` / `account-store.ts`. -/
inductive Strategy where
  | roundRobin
  | priority
  | quota
deriving DecidableEq, Repr

/-- Pool configuration of `account-store.ts` (`interface PoolConfig`). -/
structure PoolConfig where
  enabled : Bool
  strategy : Strategy
  apiKey : String
deriving DecidableEq, Repr

/-- Per-instance session state of `~/lib/state` as initialised by
`createState` in `instance-manager.ts`.  The model catalog is embedded as the
list of model ids (the only part the claims read). -/
structure InstanceState where
  accountType : String
  githubToken : String
  manualApprove : Bool
  rateLimitWait : Bool
  showToken : Bool
  copilotToken : Option String := none
  vsCodeVersion : Option String := none
  models : Option (List String) := none
deriving DecidableEq, Repr

/-- Status union of `ProxyInstance` in `instance-manager.ts`. -/
inductive InstStatus where
  | running
  | stopped
  | error
deriving DecidableEq, Repr

/-- `interface ProxyInstance` of `instance-manager.ts`.  `tokenInterval`
holds the handle returned by `setInterval` (a natural number in the model). -/
structure ProxyInstance where
  account : Account
  state : InstanceState
  status : InstStatus
  error : Option String := none
  tokenInterval : Option Nat := none
deriving DecidableEq, Repr

/-- The module-level mutable context of `instance-manager.ts`: the
`instances` map (an association list keyed by account id), together with the
ambient JavaScript timer table — `timers` is the set of `setInterval` handles
that are still scheduled, `nextTimer` the next fresh handle. -/
structure Registry where
  instances : List (String × ProxyInstance)
  timers : List Nat
  nextTimer : Nat
deriving DecidableEq, Repr

/-- Map update `instances.set(key, value)`: replace the binding if present, otherwise
append it. -/
def setEntry : List (String × ProxyInstance) → String → ProxyInstance →
    List (String × ProxyInstance)
  | [], k, v => [(k, v)]
  | (k0, v0) :: rest, k, v =>
    if k0 = k then (k, v) :: rest else (k0, v0) :: setEntry rest k v

/-- Embedding of `createState(account)` of `instance-manager.ts`. -/
def createState (account : Account) : InstanceState :=
  { accountType := account.accountType
    githubToken := account.githubToken
    manualApprove := false
    rateLimitWait := false
    showToken := false }

/-- Outcomes of the external calls `startInstance` performs, in order:
`getVSCodeVersion()`, `fetchCopilotToken` (returning `{token, refresh_in}`),
and `fetchModels` (returning the catalog's model ids).  An `Except.error`
models the call throwing (e.g. `HTTPError` on a non-ok upstream response). -/
structure StartEnv where
  vsCodeVersion : Except String String
  tokenFetch : Except String (String × Int)
  modelsFetch : Except String (List String)

/-- Embedding of `setupInstanceToken(instance)` of `instance-manager.ts`: fetch the
Copilot token, store it on the session state, then schedule the recurring
refresh (`setInterval`), recording the fresh handle both on the instance and
in the ambient timer table.  Throws when the token fetch throws. -/
def setupInstanceToken (env : StartEnv) (reg : Registry) (inst : ProxyInstance) :
    Except String (Registry × ProxyInstance) :=
  match env.tokenFetch with
  | .error e => .error e
  | .ok (token, _refreshIn) =>
    let st := { inst.state with copilotToken := some token }
    let handle := reg.nextTimer
    .ok ({ reg with timers := handle :: reg.timers, nextTimer := reg.nextTimer + 1 },
         { inst with state := st, tokenInterval := some handle })

/-- Embedding of `startInstance(account)` of `instance-manager.ts`.  Returns the updated
registry and `some message` when the original function re-throws the startup
error.  The sequencing of the source is kept: version metadata, then
`setupInstanceToken`, then the model catalog, and only then is the status set
to `running` and the map entry written; any failure writes the entry with
status `error` instead and re-raises. -/
def startInstance (env : StartEnv) (reg : Registry) (account : Account) :
    Registry × Option String :=
  match List.lookup account.id reg.instances with
  | some existing =>
    if existing.status = .running then
      (reg, none)
    else
      startInstanceGo env reg account
  | none => startInstanceGo env reg account
where
  /-- Body of `startInstance` past the already-running check. -/
  startInstanceGo (env : StartEnv) (reg : Registry) (account : Account) :
      Registry × Option String :=
    let inst : ProxyInstance :=
      { account := account, state := createState account, status := .stopped }
    match env.vsCodeVersion with
    | .error e =>
      let failed := { inst with status := .error, error := some e }
      ({ reg with instances := setEntry reg.instances account.id failed }, some e)
    | .ok v =>
      let inst := { inst with state := { inst.state with vsCodeVersion := some v } }
      match setupInstanceToken env reg inst with
      | .error e =>
        let failed := { inst with status := .error, error := some e }
        ({ reg with instances := setEntry reg.instances account.id failed }, some e)
      | .ok (reg1, inst1) =>
        match env.modelsFetch with
        | .error e =>
          let failed := { inst1 with status := .error, error := some e }
          ({ reg1 with instances := setEntry reg1.instances account.id failed }, some e)
        | .ok catalog =>
          let inst2 := { inst1 with
            state := { inst1.state with models := some catalog },
            status := .running }
          ({ reg1 with instances := setEntry reg1.instances account.id inst2 }, none)

/-- Embedding of `stopInstance(accountId)` of `instance-manager.ts`: no-op when the id is
absent; otherwise `clearInterval` the refresh handle (removing it from the
ambient timer table — the field on the instance is not reset, as in the
source) and mark the entry `stopped`. -/
def stopInstance (reg : Registry) (accountId : String) : Registry :=
  match List.lookup accountId reg.instances with
  | none => reg
  | some inst =>
    let reg1 :=
      match inst.tokenInterval with
      | some h => { reg with timers := reg.timers.filter (fun t => t ≠ h) }
      | none => reg
    let stopped := { inst with status := .stopped }
    { reg1 with instances := setEntry reg1.instances accountId stopped }

/-- Embedding of `getInstanceStatus(accountId)`: `stopped` when absent. -/
def getInstanceStatus (reg : Registry) (accountId : String) : InstStatus :=
  match List.lookup accountId reg.instances with
  | some inst => inst.status
  | none => .stopped

/-- Embedding of `getInstanceState(accountId)` of `instance-manager.ts`: the session state,
but only while the status is exactly `running`. -/
def getInstanceState (reg : Registry) (accountId : String) : Option InstanceState :=
  match List.lookup accountId reg.instances with
  | some inst => if inst.status = .running then some inst.state else none
  | none => none

/-- Invariant claimed for the registry: an instance observable as `running`
always has its Copilot token populated. -/
def TokenInv (reg : Registry) : Prop :=
  ∀ pr ∈ reg.instances, (pr : String × ProxyInstance).2.status = .running →
    pr.2.state.copilotToken.isSome = true

/-- Quota snapshot of `load-balancer.ts` (`interface QuotaSnapshot`). -/
structure QuotaSnapshot where
  entitlement : ℚ
  remaining : ℚ
deriving DecidableEq, Repr

/-- Cached usage record of `load-balancer.ts` (`interface CachedUsage`,
field `quota_snapshots`). -/
structure CachedUsage where
  premiumInteractions : QuotaSnapshot
  chat : QuotaSnapshot
  completions : QuotaSnapshot
deriving DecidableEq, Repr

/-- The ambient context read by `load-balancer.ts`: the account store
snapshot (`getAccounts()`), the instance registry (`getInstanceState`), and
the usage cache (`getCachedUsage`, `none` both for a cache miss and for a
cached record without a `usage` field). -/
structure ConsoleEnv where
  accounts : List Account
  registry : Registry
  usage : String → Option CachedUsage

/-- Embedding of `getRunningAccounts(accounts)` of `load-balancer.ts`: enabled accounts
whose instance state is defined (i.e. whose instance is `running`). -/
def getRunningAccounts (env : ConsoleEnv) : List Account :=
  env.accounts.filter (fun a => a.enabled && (getInstanceState env.registry a.id).isSome)

/-- Score computed for one candidate in the `quota` branch of
`selectAccount`: `-1` without cached usage, otherwise the mean of the three
remaining/entitlement ratios. -/
def quotaScore (env : ConsoleEnv) (a : Account) : ℚ :=
  match env.usage a.id with
  | none => -1
  | some u =>
    let premiumRemaining := u.premiumInteractions.remaining / u.premiumInteractions.entitlement
    let chatRemaining := u.chat.remaining / u.chat.entitlement
    let compRemaining := u.completions.remaining / u.completions.entitlement
    (premiumRemaining + chatRemaining + compRemaining) / 3

/-- Tail of `selectAccount`: re-read the selected account's instance state
and return `null` when it is gone (`if (!state) return null`).  The source
returns the `{account, state}` pair; the model returns the account — its
state is recoverable as `getInstanceState env.registry a.id`. -/
def finishPick (env : ConsoleEnv) (a : Account) (rr : Nat) : Option Account × Nat :=
  match getInstanceState env.registry a.id with
  | some _ => (some a, rr)
  | none => (none, rr)

/-- Embedding of `selectAccount(strategy, exclude)` of `load-balancer.ts`.  The shared
module-level cursor `rrIndex` is threaded explicitly: the function takes its
current value and returns its value after the call.  Sorts use `mergeSort`,
which is stable like the JavaScript `Array.prototype.sort`; the comparator
`(a, b) => b.x - a.x` of the source is the descending order `y.x ≤ x.x`.
The `[]` arms of the two sort matches are unreachable (`running` is
non-empty there) and mirror the source only up to that unreachability. -/
def selectAccount (env : ConsoleEnv) (strategy : Strategy) (exclude : List String)
    (rr : Nat) : Option Account × Nat :=
  let running0 := getRunningAccounts env
  let running := if exclude.isEmpty then running0
                 else running0.filter (fun a => !(exclude.contains a.id))
  if h : running.length = 0 then (none, rr)
  else
    match strategy with
    | .priority =>
      match running.mergeSort (fun x y => decide (y.priority ≤ x.priority)) with
      | [] => (none, rr)
      | top :: _ => finishPick env top rr
    | .quota =>
      let scored := running.map (fun a => (a, quotaScore env a))
      match scored.mergeSort (fun x y => decide (y.2 ≤ x.2)) with
      | [] => (none, rr)
      | top :: _ =>
        if top.2 < 0 then
          let i := rr % running.length
          let selected := running.get ⟨i, Nat.mod_lt _ (Nat.pos_of_ne_zero h)⟩
          finishPick env selected ((i + 1) % running.length)
        else finishPick env top.1 rr
    | .roundRobin =>
      let i := rr % running.length
      let selected := running.get ⟨i, Nat.mod_lt _ (Nat.pos_of_ne_zero h)⟩
      finishPick env selected ((i + 1) % running.length)

/-- Iterated selection: `k` consecutive pool-mode selections under the `round-robin` strategy
with no exclusions, threading the shared cursor; returns the picked accounts
in order together with the final cursor. -/
def runRoundRobin (env : ConsoleEnv) : Nat → Nat → List Account × Nat
  | 0, rr => ([], rr)
  | k + 1, rr =>
    match selectAccount env .roundRobin [] rr with
    | (some a, rr1) =>
      let rest := runRoundRobin env k rr1
      (a :: rest.1, rest.2)
    | (none, rr1) => ([], rr1)

/-- JSON error body shapes this proxy sends to clients: `plain m` is
`{ error: "<m>" }` (the `proxyAuth` failures), `detailed m t` is
`{ error: { message: m, type: t } }` (the proxy handlers' failures). -/
inductive ErrBody where
  | plain (message : String)
  | detailed (message : String) (type_ : String)
deriving DecidableEq, Repr

/-- Whether an error body has the nested `{ error: { message, type } }`
shape. -/
def ErrBody.isDetailed : ErrBody → Bool
  | .plain _ => false
  | .detailed _ _ => true

/-- Result of the `proxyAuth` middleware of `console/index.ts`: either the
request proceeds bound to an account (directly or in pool mode), or it is
answered with an error response. -/
inductive AuthOutcome where
  | direct (accountId : String)
  | pool (accountId : String) (strategy : Strategy)
  | failure (status : Nat) (body : ErrBody)
deriving DecidableEq, Repr

/-- Whether the outcome binds the request directly to an account. -/
def AuthOutcome.isDirect : AuthOutcome → Bool
  | .direct _ => true
  | _ => false

/-- Whether the outcome binds the request in pool mode. -/
def AuthOutcome.isPool : AuthOutcome → Bool
  | .pool _ _ => true
  | _ => false

/-- Pool-mode fallback path of `proxyAuth` (the code past the per-account
check): reject unless the pool exists, is enabled and the token equals the
pool key; otherwise select an account with the pool strategy, failing with
503 when the selector returns no candidate. -/
def proxyAuthPool (env : ConsoleEnv) (poolCfg : Option PoolConfig) (rr : Nat)
    (token : Option String) : AuthOutcome × Nat :=
  match poolCfg, token with
  | some cfg, some t =>
    if cfg.enabled && t == cfg.apiKey then
      match selectAccount env cfg.strategy [] rr with
      | (some acc, rr1) => (.pool acc.id cfg.strategy, rr1)
      | (none, rr1) => (.failure 503 (.plain "No available accounts in pool"), rr1)
    else (.failure 401 (.plain "Invalid API key"), rr)
  | _, _ => (.failure 401 (.plain "Invalid API key"), rr)

/-- Embedding of `proxyAuth` of `console/index.ts`.  `token` is the bearer token after
stripping the `Bearer ` prefix (`none` when the `authorization` header is
absent).  The per-account key is tried first (`getAccountByApiKey`, a
first-match scan of the store); only then the pool path `proxyAuthPool`.
The shared round-robin cursor is threaded like in `selectAccount`. -/
def proxyAuth (env : ConsoleEnv) (poolCfg : Option PoolConfig) (rr : Nat)
    (token : Option String) : AuthOutcome × Nat :=
  match token with
  | some t =>
    match env.accounts.find? (fun a => a.apiKey == t) with
    | some account =>
      if (getInstanceState env.registry account.id).isSome then (.direct account.id, rr)
      else (.failure 503 (.plain "Account instance not running"), rr)
    | none => proxyAuthPool env poolCfg rr token
  | none => proxyAuthPool env poolCfg rr token

/-- An HTTP response as seen by the retry coordinator: its status and an
opaque body. -/
structure HttpResponse where
  status : Nat
  body : String
deriving DecidableEq, Repr

/-- Embedding of `isRetryableStatus` of `console/index.ts`: `429` or any `>= 500`. -/
def isRetryableStatus (status : Nat) : Bool :=
  status == 429 || decide (500 ≤ status)

/-- The `while (true)` retry loop of `withPoolRetry`.  The handler is a
function of the account the request is bound to (its response to a replayed
buffered body is per-account).  `fuel` bounds the recursion; each iteration
excludes the account it tried before re-selecting, so
`retryLoop_fuel_independent` below shows any `fuel` larger than the number of
not-yet-excluded running candidates — in particular the value used by
`withPoolRetry` — gives the same result as the unbounded source loop.
Returns the response together with the ids the handler was invoked on, in
order. -/
def retryLoop (env : ConsoleEnv) (handler : String → HttpResponse)
    (strategy : Strategy) (firstResponse : HttpResponse) :
    Nat → List String → Nat → HttpResponse × List String
  | 0, _, _ => (firstResponse, [])
  | fuel + 1, exclude, rr =>
    match selectAccount env strategy exclude rr with
    | (none, _) => (firstResponse, [])
    | (some acc, rr1) =>
      let retryResponse := handler acc.id
      if isRetryableStatus retryResponse.status then
        let r := retryLoop env handler strategy firstResponse fuel (acc.id :: exclude) rr1
        (r.1, acc.id :: r.2)
      else (retryResponse, [acc.id])

/-- Embedding of `withPoolRetry(c, handler)` of `console/index.ts`.  `isPool` and
`boundAccountId` are the `poolMode`/`poolAccountId` context values set by
`proxyAuth`; outside pool mode the handler is invoked once on the bound
state and its response returned as is.  In pool mode the body is buffered
(a no-op for the pure handler model), the first response is returned unless
its status is retryable, and otherwise the loop retries across the remaining
accounts, returning the first failing response when the selector is
exhausted.  The second component lists the accounts the handler ran on. -/
def withPoolRetry (env : ConsoleEnv) (handler : String → HttpResponse)
    (strategy : Strategy) (isPool : Bool) (boundAccountId : String) (rr : Nat) :
    HttpResponse × List String :=
  if !isPool then (handler boundAccountId, [boundAccountId])
  else
    let firstResponse := handler boundAccountId
    if !(isRetryableStatus firstResponse.status) then (firstResponse, [boundAccountId])
    else
      let r := retryLoop env handler strategy firstResponse
        (env.accounts.length + 1) [boundAccountId] rr
      (r.1, boundAccountId :: r.2)

/-- Upstream `fetch` outcome as observed by a proxy handler: HTTP status,
the `ok` flag (status in the 2xx range), and the body text. -/
structure Upstream where
  status : Nat
  ok : Bool
  bodyText : String
deriving DecidableEq, Repr

/-- What a proxy handler returns: a JSON success, a streamed success, or a
JSON error response. -/
inductive HandlerResult where
  | jsonOk (body : String)
  | streamOk
  | failure (status : Nat) (body : ErrBody)
deriving DecidableEq, Repr

/-- Embedding of `completionsHandler` of `instance-manager.ts`, as far as its responses
are concerned.  `upstream` is the outcome of the
`fetch(copilotBaseUrl + "/chat/completions")` call; `Except.error m` models
any exception thrown inside the handler's `try` (body parsing, the
Responses-API re-route throwing `HTTPError`, a network failure, JSON
decoding), all of which reach the single `catch` and produce the 500
response.  A non-ok upstream response is forwarded as
`{ error: { message: text, type: "error" } }` with the upstream status.
`messagesHandler` and `embeddingsHandler` produce their failures through the
same two shapes. -/
def completionsHandler (streamFlag : Bool) (upstream : Except String Upstream) :
    HandlerResult :=
  match upstream with
  | .error m => .failure 500 (.detailed m "error")
  | .ok u =>
    if !u.ok then .failure u.status (.detailed u.bodyText "error")
    else if streamFlag then .streamOk
    else .jsonOk u.bodyText

/-- Character-level prefix test: `strStartsWith s pre` is the
`s.startsWith(pre)` of the source, computed on the decoded character lists
(so that it evaluates by kernel reduction). -/
def charsStartWith : List Char → List Char → Bool
  | [], _ => true
  | _ :: _, [] => false
  | p :: ps, c :: cs => p == c && charsStartWith ps cs

/-- String prefix test used by `countTokensHandler`. -/
def strStartsWith (s pre : String) : Bool := charsStartWith pre.data s.data

/-- JavaScript `Math.round` for non-negative JavaScript numbers: half-up rounding. -/
def jsRound (q : ℚ) : ℤ := ⌊q + 1 / 2⌋

/-- Response of `countTokensHandler`: always a 200 JSON
`{ input_tokens: n }`. -/
structure CountTokensResp where
  status : Nat
  inputTokens : ℤ
deriving DecidableEq, Repr

/-- Embedding of `countTokensHandler` of `instance-manager.ts`.  `catalog` is
`st.models?.data` projected to model ids; `translated` is the outcome of
`translateToOpenAI` (which can throw into the handler's `catch`);
`tokenize` is the outcome of `getTokenCount`, giving `{input, output}`.
The fudge literals `1.15` and `1.03` are the rationals `115/100` and
`103/100`. -/
def countTokensHandler (catalog : List String) (model : String)
    (translated : Except String Unit) (tokenize : Except String (Nat × Nat)) :
    CountTokensResp :=
  match translated with
  | .error _ => ⟨200, 1⟩
  | .ok _ =>
    if !(catalog.contains model) then ⟨200, 1⟩
    else
      match tokenize with
      | .error _ => ⟨200, 1⟩
      | .ok (inputCount, outputCount) =>
        let finalTokenCount : ℤ := inputCount + outputCount
        let finalTokenCount : ℤ :=
          if strStartsWith model "claude" then
            jsRound ((finalTokenCount : ℚ) * (115 / 100))
          else if strStartsWith model "grok" then
            jsRound ((finalTokenCount : ℚ) * (103 / 100))
          else finalTokenCount
        ⟨200, finalTokenCount⟩

/-- Embedding of `generateApiKey()` of `account-store.ts`; `randomHex` stands for
`crypto.randomBytes(16).toString("hex")`. -/
def generateApiKey (randomHex : String) : String := "cpa-" ++ randomHex

/-- Embedding of `generatePoolApiKey()` of `account-store.ts`. -/
def generatePoolApiKey (randomHex : String) : String := "cpp-" ++ randomHex

/-- The persisted store of `account-store.ts` (`interface AccountStore`). -/
structure AccountStore where
  accounts : List Account
  pool : Option PoolConfig
deriving DecidableEq, Repr

/-- Embedding of `addAccount(account)` of `account-store.ts`: build the new record with a
fresh UUID, a generated `cpa-` key and the given or default priority, and
append it to the store.  Returns the written store and the new account. -/
def addAccount (store : AccountStore) (name githubToken accountType : String)
    (enabled : Bool) (priorityArg : Option Int) (newId createdAt randomHex : String) :
    AccountStore × Account :=
  let newAccount : Account :=
    { id := newId
      name := name
      githubToken := githubToken
      accountType := accountType
      apiKey := generateApiKey randomHex
      enabled := enabled
      createdAt := createdAt
      priority := priorityArg.getD 0 }
  ({ store with accounts := store.accounts ++ [newAccount] }, newAccount)

/-- Embedding of `regenerateApiKey(id)` of `account-store.ts`: replace the account's key
with a freshly generated one; `none` when the id is unknown. -/
def regenerateApiKey (store : AccountStore) (id : String) (randomHex : String) :
    AccountStore × Option Account :=
  match store.accounts.findIdx? (fun a => a.id == id) with
  | none => (store, none)
  | some i =>
    let updated := (store.accounts.get? i).map
      (fun a => { a with apiKey := generateApiKey randomHex })
    match updated with
    | none => (store, none)
    | some a =>
      ({ store with accounts := store.accounts.set i a }, some a)

/-- An item of a Responses-API `output` array, projected to the fields
`translateStream` reads: its `type` tag and, for `function_call` items, its
`name`. -/
structure ROutputItem where
  type_ : String
  name : Option String
deriving DecidableEq, Repr

/-- Usage block `usage` of a completed Responses-API response (`input_tokens`,
`output_tokens?`, `total_tokens`). -/
structure RUsage where
  inputTokens : Nat
  outputTokens : Option Nat
  totalTokens : Nat
deriving DecidableEq, Repr

/-- A completed Responses-API response, projected to the fields
`translateStream` reads (`output`, `usage`); both reads are behind optional
chaining in the source, hence `Option`. -/
structure RResult where
  output : Option (List ROutputItem)
  usage : Option RUsage
deriving DecidableEq, Repr

/-- The JSON value of one Responses-API SSE event, with exactly the fields
the translator dereferences; a field a given event kind does not carry is
`none` (JavaScript `undefined`). -/
structure RParsedData where
  delta : Option String
  outputIndex : Option Nat
  item : Option ROutputItem
  response : Option RResult
deriving DecidableEq, Repr

/-- The `data:` payload of an SSE event as the translator's `JSON.parse`
boundary sees it: the literal `[DONE]` marker, a string `JSON.parse` throws
on, or a parsed JSON value. -/
inductive RDataField where
  | doneMarker
  | malformed
  | parsed (d : RParsedData)
deriving DecidableEq, Repr

/-- One server-sent event from the upstream `/responses` stream: the `event:`
name and the `data:` payload (`none` for an absent or empty `data:`, on
which the source `continue`s). -/
structure RSSEEvent where
  event : Option String
  data : Option RDataField
deriving DecidableEq, Repr

/-- Field `delta.tool_calls[i].function` of an OpenAI chat-completion chunk. -/
structure FunctionDelta where
  name : Option String
  arguments : Option String
deriving DecidableEq, Repr

/-- One entry of `delta.tool_calls` of an OpenAI chat-completion chunk. -/
structure ToolCallDelta where
  index : Nat
  id : Option String
  type_ : Option String
  function : FunctionDelta
deriving DecidableEq, Repr

/-- Field `delta` of an OpenAI chat-completion chunk choice. -/
structure ChunkDelta where
  content : Option String
  toolCalls : Option (List ToolCallDelta)
deriving DecidableEq, Repr

/-- One choice of an OpenAI chat-completion chunk. -/
structure ChunkChoice where
  index : Nat
  delta : ChunkDelta
  finishReason : Option String
deriving DecidableEq, Repr

/-- Field `usage` of the terminal chat-completion chunk. -/
structure ChunkUsage where
  promptTokens : Nat
  completionTokens : Option Nat
  totalTokens : Nat
deriving DecidableEq, Repr

/-- An OpenAI chat-completion chunk as emitted by `translateStream` (the
`object` field is the constant `"chat.completion.chunk"` in the source). -/
structure ChatCompletionChunk where
  id : String
  created : Nat
  model : String
  choices : List ChunkChoice
  usage : Option ChunkUsage
deriving DecidableEq, Repr

/-- One SSE message yielded downstream: a serialized chunk or the final
`[DONE]` message. -/
inductive OutMsg where
  | data (chunk : ChatCompletionChunk)
  | doneMarker
deriving DecidableEq, Repr

/-- One iteration of the `for await` loop of `translateStream` in
`create-responses.ts`.  `genId ctr` stands for the fresh
`randomUUID().replace(...).slice(0, 10)` drawn when a `function_call` output
item is announced; `ctr` counts those draws.  Events without data, the
`[DONE]` marker, events whose data does not parse, and unhandled event types
all produce no output. -/
def translateStep (responseId : String) (created : Nat) (model : String)
    (genId : Nat → String) (ctr : Nat) (e : RSSEEvent) : List OutMsg × Nat :=
  match e.data with
  | none => ([], ctr)
  | some .doneMarker => ([], ctr)
  | some .malformed => ([], ctr)
  | some (.parsed d) =>
    if e.event = some "response.output_text.delta" then
      ([.data
        { id := responseId, created := created, model := model
          choices := [{ index := 0
                        delta := { content := d.delta, toolCalls := none }
                        finishReason := none }]
          usage := none }], ctr)
    else if e.event = some "response.function_call_arguments.delta" then
      ([.data
        { id := responseId, created := created, model := model
          choices := [{ index := 0
                        delta := { content := none
                                   toolCalls := some [{ index := d.outputIndex.getD 0
                                                        id := none
                                                        type_ := none
                                                        function := { name := some ""
                                                                      arguments := d.delta } }] }
                        finishReason := none }]
          usage := none }], ctr)
    else if e.event = some "response.output_item.added" then
      match d.item with
      | some item =>
        if item.type_ = "function_call" then
          ([.data
            { id := responseId, created := created, model := model
              choices := [{ index := 0
                            delta := { content := none
                                       toolCalls := some [{ index := d.outputIndex.getD 0
                                                            id := some ("call_" ++ genId ctr)
                                                            type_ := some "function"
                                                            function := { name := some (item.name.getD "")
                                                                          arguments := some "" } }] }
                            finishReason := none }]
              usage := none }], ctr + 1)
        else ([], ctr)
      | none => ([], ctr)
    else if e.event = some "response.completed" then
      let hasToolCalls : Bool :=
        match d.response with
        | some r =>
          match r.output with
          | some out => out.any (fun item => item.type_ == "function_call")
          | none => false
        | none => false
      let usage := d.response.bind (fun r => r.usage)
      ([.data
        { id := responseId, created := created, model := model
          choices := [{ index := 0
                        delta := { content := none, toolCalls := none }
                        finishReason := some (if hasToolCalls then "tool_calls" else "stop") }]
          usage := usage.map (fun u =>
            { promptTokens := u.inputTokens
              completionTokens := u.outputTokens
              totalTokens := u.totalTokens }) },
        .doneMarker], ctr)
    else ([], ctr)

/-- Embedding of `translateStream` of `create-responses.ts` over a finite event stream:
the concatenation of the per-event translations, threading the id counter. -/
def translateStream (responseId : String) (created : Nat) (model : String)
    (genId : Nat → String) (ctr : Nat) : List RSSEEvent → List OutMsg
  | [] => []
  | e :: rest =>
    let step := translateStep responseId created model genId ctr e
    step.1 ++ translateStream responseId created model genId step.2 rest

/-! Concrete test fixtures used by the witness theorems below. -/

/-- A concrete enabled account for tests. -/
def fixtureAccount (id apiKey : String) (priority : Int) : Account :=
  { id := id
    name := "acct-" ++ id
    githubToken := "gh-" ++ id
    accountType := "individual"
    apiKey := apiKey
    enabled := true
    createdAt := "2026-01-01T00:00:00.000Z"
    priority := priority }

/-- A running instance for a fixture account, with its token populated and a
scheduled refresh handle. -/
def fixtureInstance (a : Account) (handle : Nat) : ProxyInstance :=
  { account := a
    state := { createState a with
      copilotToken := some "copilot-token"
      vsCodeVersion := some "1.96.0"
      models := some ["gpt-5"] }
    status := .running
    tokenInterval := some handle }

/-- First fixture account. -/
def acctW1 : Account := fixtureAccount "a1" "cpa-k1" 3

/-- Second fixture account. -/
def acctW2 : Account := fixtureAccount "a2" "cpa-k2" 1

/-- Third fixture account. -/
def acctW3 : Account := fixtureAccount "a3" "cpa-k3" 2

/-- A registry with the three fixture accounts all running. -/
def regW : Registry :=
  { instances :=
      [("a1", fixtureInstance acctW1 0),
       ("a2", fixtureInstance acctW2 1),
       ("a3", fixtureInstance acctW3 2)]
    timers := [0, 1, 2]
    nextTimer := 3 }

/-- Console context with three enabled running accounts and an empty usage
cache. -/
def envW : ConsoleEnv :=
  { accounts := [acctW1, acctW2, acctW3]
    registry := regW
    usage := fun _ => none }

/-- Console context with no accounts at all. -/
def envEmpty : ConsoleEnv :=
  { accounts := []
    registry := { instances := [], timers := [], nextTimer := 0 }
    usage := fun _ => none }

/-- An enabled pool configuration. -/
def poolCfgX : PoolConfig :=
  { enabled := true, strategy := .roundRobin, apiKey := "cpp-key" }

/-- A handler whose response always has status 500. -/
def handler500 : String → HttpResponse :=
  fun _ => { status := 500, body := "upstream error" }

/-- Start environment in which every external call succeeds. -/
def envStart : StartEnv :=
  { vsCodeVersion := .ok "1.96.0"
    tokenFetch := .ok ("fresh-token", 1500)
    modelsFetch := .ok ["gpt-5"] }

/-- A one-account store. -/
def storeW : AccountStore := { accounts := [acctW1], pool := none }

/-- The account regenerated from `storeW` with random hex `"beef"`. -/
def acctW1Regen : Account := { acctW1 with apiKey := generateApiKey "beef" }

/-! Helper lemmas. -/

/-- Membership after a map update: an entry is the written one or an old
one. -/
theorem mem_setEntry (l : List (String × ProxyInstance)) (k : String)
    (v : ProxyInstance) : ∀ pr ∈ setEntry l k v, pr = (k, v) ∨ pr ∈ l := by
  induction l with
  | nil =>
    intro pr hpr
    simp [setEntry] at hpr
    exact Or.inl hpr
  | cons hd tl ih =>
    rcases hd with ⟨k0, v0⟩
    intro pr hpr
    by_cases hk : k0 = k
    · simp only [setEntry, if_pos hk] at hpr
      rcases List.mem_cons.mp hpr with h | h
      · exact Or.inl h
      · exact Or.inr (List.mem_cons_of_mem _ h)
    · simp only [setEntry, if_neg hk] at hpr
      rcases List.mem_cons.mp hpr with h | h
      · exact Or.inr (List.mem_cons.mpr (Or.inl h))
      · rcases ih pr h with h1 | h1
        · exact Or.inl h1
        · exact Or.inr (List.mem_cons_of_mem _ h1)

/-- The body of `startInstance` preserves the token invariant. -/
theorem startInstanceGo_tokenInv (env : StartEnv) (reg : Registry)
    (account : Account) (h : TokenInv reg) :
    TokenInv (startInstance.startInstanceGo env reg account).1 := by
  unfold startInstance.startInstanceGo
  rcases hv : env.vsCodeVersion with e | v
  · intro pr hpr hrun
    rcases mem_setEntry _ _ _ pr hpr with heq | hmem
    · subst heq; simp at hrun
    · exact h pr hmem hrun
  · rcases ht : env.tokenFetch with e | ⟨token, refreshIn⟩
    · simp only [setupInstanceToken, ht]
      intro pr hpr hrun
      rcases mem_setEntry _ _ _ pr hpr with heq | hmem
      · subst heq; simp at hrun
      · exact h pr hmem hrun
    · simp only [setupInstanceToken, ht]
      rcases hm : env.modelsFetch with e | catalog
      · intro pr hpr hrun
        rcases mem_setEntry _ _ _ pr hpr with heq | hmem
        · subst heq; simp at hrun
        · exact h pr hmem hrun
      · intro pr hpr hrun
        rcases mem_setEntry _ _ _ pr hpr with heq | hmem
        · subst heq; simp
        · exact h pr hmem hrun

/-- C2: `startInstance` populates the session token (via
`setupInstanceToken`) strictly before the status becomes `running`, so the
registry invariant "running implies token set" is preserved by
`startInstance` and by `stopInstance`; and `stopInstance` removes the
instance's refresh handle from the scheduled timers, so no token refresh
fires after stop. -/
theorem instance_token_lifecycle (env : StartEnv) (reg : Registry)
    (account : Account) (accountId : String) :
    (TokenInv reg → TokenInv (startInstance env reg account).1)
    ∧ (TokenInv reg → TokenInv (stopInstance reg accountId))
    ∧ (∀ inst handle, List.lookup accountId reg.instances = some inst →
        inst.tokenInterval = some handle →
        handle ∉ (stopInstance reg accountId).timers) := by
  refine ⟨?start, ?stop, ?timer⟩
  case start =>
    intro h
    unfold startInstance
    cases hl : List.lookup account.id reg.instances with
    | some existing =>
      by_cases hr : existing.status = .running
      · simpa [hr] using h
      · simpa [hr] using startInstanceGo_tokenInv env reg account h
    | none => exact startInstanceGo_tokenInv env reg account h
  case stop =>
    intro h
    unfold stopInstance
    cases hl : List.lookup accountId reg.instances with
    | none => exact h
    | some inst =>
      intro pr hpr hrun
      have hpr2 : pr ∈ setEntry reg.instances accountId { inst with status := .stopped } := by
        rcases hti : inst.tokenInterval with _ | handle
        · simpa [hti] using hpr
        · simpa [hti] using hpr
      rcases mem_setEntry _ _ _ pr hpr2 with heq | hmem
      · subst heq; simp at hrun
      · exact h pr hmem hrun
  case timer =>
    intro inst handle hl hti
    unfold stopInstance
    rw [hl]
    simp only [hti]
    simp [List.mem_filter]

/-- Witness for C2 at concrete inputs: starting a fresh account against an
all-success environment preserves the invariant, and stopping fixture
account `a1` (whose refresh handle is `0`) leaves no scheduled handle `0`. -/
theorem instance_token_lifecycle_witness :
    TokenInv (startInstance envStart regW (fixtureAccount "a4" "cpa-k4" 0)).1
    ∧ 0 ∉ (stopInstance regW "a1").timers := by
  constructor
  · exact (instance_token_lifecycle envStart regW (fixtureAccount "a4" "cpa-k4" 0) "a1").1
      (by unfold TokenInv; decide)
  · exact (instance_token_lifecycle envStart regW (fixtureAccount "a4" "cpa-k4" 0) "a1").2.2
      (fixtureInstance acctW1 0) 0 (by decide) (by decide)

/-- C4: a request authenticated by a specific account's own key (`poolMode`
not set) invokes the handler exactly once on the bound account and returns
its response unchanged, whatever its status — in particular also for 429 or
5xx responses and regardless of which other accounts are running. -/
theorem direct_requests_never_retry (env : ConsoleEnv)
    (handler : String → HttpResponse) (strategy : Strategy)
    (boundAccountId : String) (rr : Nat) :
    withPoolRetry env handler strategy false boundAccountId rr
      = (handler boundAccountId, [boundAccountId]) := rfl

/-- C10: account keys generated by `addAccount`/`regenerateApiKey` always
carry the `cpa-` prefix, pool keys the `cpp-` prefix, and no generated
account key can ever equal a generated pool key. -/
theorem api_key_prefixes :
    (∀ store name githubToken accountType enabled priorityArg newId createdAt
        randomHex,
      ∃ t, ((addAccount store name githubToken accountType enabled priorityArg
        newId createdAt randomHex).2).apiKey = "cpa-" ++ t)
    ∧ (∀ store id randomHex acc,
        (regenerateApiKey store id randomHex).2 = some acc →
        ∃ t, acc.apiKey = "cpa-" ++ t)
    ∧ (∀ randomHex, ∃ t, generatePoolApiKey randomHex = "cpp-" ++ t)
    ∧ (∀ r1 r2, generateApiKey r1 ≠ generatePoolApiKey r2) := by
  refine ⟨?add, ?regen, ?pool, ?distinct⟩
  case add =>
    intro store name githubToken accountType enabled priorityArg newId createdAt
      randomHex
    exact ⟨randomHex, rfl⟩
  case regen =>
    intro store id randomHex acc h
    rcases hi : store.accounts.findIdx? (fun a => a.id == id) with _ | i
    · simp [regenerateApiKey, hi] at h
    · rcases hg : store.accounts[i]? with _ | a
      · simp [regenerateApiKey, hi, hg] at h
      · simp [regenerateApiKey, hi, hg] at h
        subst h
        exact ⟨randomHex, rfl⟩
  case pool =>
    intro randomHex
    exact ⟨randomHex, rfl⟩
  case distinct =>
    intro r1 r2 h
    simp only [generateApiKey, generatePoolApiKey] at h
    have h2 := congrArg String.data h
    rw [String.data_append, String.data_append] at h2
    have ha : ("cpa-" : String).data = ['c', 'p', 'a', '-'] := rfl
    have hb : ("cpp-" : String).data = ['c', 'p', 'p', '-'] := rfl
    rw [ha, hb] at h2
    simp at h2

/-- Witness for C10: regenerating the key of fixture account `a1` with
random hex `"beef"` yields a `cpa-` key. -/
theorem api_key_prefixes_witness :
    (regenerateApiKey storeW "a1" "beef").2 = some acctW1Regen
    ∧ (∃ t, acctW1Regen.apiKey = "cpa-" ++ t) := by
  constructor
  · decide
  · exact api_key_prefixes.2.1 storeW "a1" "beef" acctW1Regen (by decide)

/-- C8: `countTokensHandler` always answers 200; a catalog model whose id
starts with `claude` gets `round(raw × 1.15)` of the raw estimate
`input + output`, one starting with `grok` gets `round(raw × 1.03)`; a model
absent from the catalog, a translation failure or a tokenizer failure all
yield exactly `{ input_tokens: 1 }`. -/
theorem count_tokens_fudge (catalog : List String) (model : String)
    (translated : Except String Unit) (tokenize : Except String (Nat × Nat)) :
    (countTokensHandler catalog model translated tokenize).status = 200
    ∧ (∀ i o, catalog.contains model = true → strStartsWith model "claude" = true →
        countTokensHandler catalog model (.ok ()) (.ok (i, o))
          = ⟨200, jsRound (((i : ℚ) + (o : ℚ)) * (115 / 100))⟩)
    ∧ (∀ i o, catalog.contains model = true → strStartsWith model "claude" = false →
        strStartsWith model "grok" = true →
        countTokensHandler catalog model (.ok ()) (.ok (i, o))
          = ⟨200, jsRound (((i : ℚ) + (o : ℚ)) * (103 / 100))⟩)
    ∧ (catalog.contains model = false →
        countTokensHandler catalog model translated tokenize = ⟨200, 1⟩)
    ∧ (∀ m, countTokensHandler catalog model (.error m) tokenize = ⟨200, 1⟩)
    ∧ (∀ m, countTokensHandler catalog model (.ok ()) (.error m) = ⟨200, 1⟩) := by
  refine ⟨?status, ?claude, ?grok, ?unknown, ?translateFail, ?tokenizeFail⟩
  case status =>
    unfold countTokensHandler
    cases translated with
    | error m => rfl
    | ok u =>
      by_cases hc : catalog.contains model
      · simp only [hc]
        cases tokenize with
        | error m => simp
        | ok p =>
          simp only []
          split <;> rfl
      · have hm : ¬(model ∈ catalog) := by simp_all
        simp [hm]
  case claude =>
    intro i o hc hs
    unfold countTokensHandler
    simp only [hc, hs, Bool.not_true, if_true]
    simp [Int.cast_add, Int.cast_natCast]
  case grok =>
    intro i o hc hncl hs
    unfold countTokensHandler
    simp only [hc, hncl, hs, Bool.not_true, if_true]
    simp [Int.cast_add, Int.cast_natCast]
  case unknown =>
    intro hc
    unfold countTokensHandler
    cases translated with
    | error m => rfl
    | ok u =>
      have hm : ¬(model ∈ catalog) := by simp_all
      simp [hm]
  case translateFail =>
    intro m
    rfl
  case tokenizeFail =>
    intro m
    unfold countTokensHandler
    by_cases hc : catalog.contains model <;> simp [hc]

/-- Witness for C8: a raw estimate of 100 yields 115 for `claude-x`, 103 for
`grok-x`, and an unknown model yields 1. -/
theorem count_tokens_fudge_witness :
    countTokensHandler ["claude-x"] "claude-x" (.ok ()) (.ok (60, 40)) = ⟨200, 115⟩
    ∧ countTokensHandler ["grok-x"] "grok-x" (.ok ()) (.ok (98, 2)) = ⟨200, 103⟩
    ∧ countTokensHandler ["claude-x"] "other-model" (.ok ()) (.ok (60, 40)) = ⟨200, 1⟩ := by
  refine ⟨?claude, ?grok, ?unknown⟩
  case claude =>
    have h := (count_tokens_fudge ["claude-x"] "claude-x" (.ok ()) (.ok (60, 40))).2.1
      60 40 (by decide) (by decide)
    rw [h]
    have hr : jsRound ((((60 : ℕ) : ℚ) + ((40 : ℕ) : ℚ)) * (115 / 100)) = 115 := by
      unfold jsRound
      push_cast
      rw [Int.floor_eq_iff]; norm_num
    rw [hr]
  case grok =>
    have h := (count_tokens_fudge ["grok-x"] "grok-x" (.ok ()) (.ok (98, 2))).2.2.1
      98 2 (by decide) (by decide) (by decide)
    rw [h]
    have hr : jsRound ((((98 : ℕ) : ℚ) + ((2 : ℕ) : ℚ)) * (103 / 100)) = 103 := by
      unfold jsRound
      push_cast
      rw [Int.floor_eq_iff]; norm_num
    rw [hr]
  case unknown =>
    exact (count_tokens_fudge ["claude-x"] "other-model" (.ok ()) (.ok (60, 40))).2.2.2.1
      (by decide)

/-- C7: the Responses-API stream translator maps a `response.output_text.delta`
event to a chunk whose `delta.content` is the event's delta; a
`response.output_item.added` event carrying a `function_call` item to a chunk
opening a tool call at that `output_index` with the item's name and empty
arguments (drawing a fresh call id); a `response.function_call_arguments.delta`
event to an arguments-delta chunk at that `output_index`; a
`response.completed` event to a terminal chunk whose `finish_reason` is
`tool_calls` exactly when the completed response's output contains a
`function_call` item (else `stop`), followed by the `[DONE]` message; and an
event whose data does not parse produces no output. -/
theorem translate_stream_event_mapping (responseId : String) (created : Nat)
    (model : String) (genId : Nat → String) (ctr : Nat) (rest : List RSSEEvent) :
    (∀ d : RParsedData,
      translateStream responseId created model genId ctr
        ({ event := some "response.output_text.delta", data := some (.parsed d) } :: rest)
      = .data
          { id := responseId, created := created, model := model
            choices := [{ index := 0
                          delta := { content := d.delta, toolCalls := none }
                          finishReason := none }]
            usage := none }
        :: translateStream responseId created model genId ctr rest)
    ∧ (∀ d : RParsedData,
      translateStream responseId created model genId ctr
        ({ event := some "response.function_call_arguments.delta", data := some (.parsed d) } :: rest)
      = .data
          { id := responseId, created := created, model := model
            choices := [{ index := 0
                          delta := { content := none
                                     toolCalls := some [{ index := d.outputIndex.getD 0
                                                          id := none
                                                          type_ := none
                                                          function := { name := some ""
                                                                        arguments := d.delta } }] }
                          finishReason := none }]
            usage := none }
        :: translateStream responseId created model genId ctr rest)
    ∧ (∀ (dDelta : Option String) (dIdx : Option Nat) (dResp : Option RResult)
          (itemName : Option String),
      translateStream responseId created model genId ctr
        ({ event := some "response.output_item.added"
           data := some (.parsed
             { delta := dDelta, outputIndex := dIdx
               item := some { type_ := "function_call", name := itemName }
               response := dResp }) } :: rest)
      = .data
          { id := responseId, created := created, model := model
            choices := [{ index := 0
                          delta := { content := none
                                     toolCalls := some [{ index := dIdx.getD 0
                                                          id := some ("call_" ++ genId ctr)
                                                          type_ := some "function"
                                                          function := { name := some (itemName.getD "")
                                                                        arguments := some "" } }] }
                          finishReason := none }]
            usage := none }
        :: translateStream responseId created model genId (ctr + 1) rest)
    ∧ (∀ (dDelta : Option String) (dIdx : Option Nat) (dItem : Option ROutputItem)
          (outs : List ROutputItem) (u : Option RUsage),
      translateStream responseId created model genId ctr
        ({ event := some "response.completed"
           data := some (.parsed
             { delta := dDelta, outputIndex := dIdx, item := dItem
               response := some { output := some outs, usage := u } }) } :: rest)
      = .data
          { id := responseId, created := created, model := model
            choices := [{ index := 0
                          delta := { content := none, toolCalls := none }
                          finishReason := some
                            (if ∃ it ∈ outs, it.type_ = "function_call" then
                               "tool_calls" else "stop") }]
            usage := u.map (fun uu =>
              { promptTokens := uu.inputTokens
                completionTokens := uu.outputTokens
                totalTokens := uu.totalTokens }) }
        :: .doneMarker :: translateStream responseId created model genId ctr rest)
    ∧ (∀ eventName : Option String,
      translateStream responseId created model genId ctr
        ({ event := eventName, data := some .malformed } :: rest)
      = translateStream responseId created model genId ctr rest) := by
  refine ⟨?text, ?args, ?added, ?completed, ?malformed⟩
  case text =>
    intro d
    simp [translateStream, translateStep]
  case args =>
    intro d
    simp [translateStream, translateStep]
  case added =>
    intro dDelta dIdx dResp itemName
    simp [translateStream, translateStep]
  case completed =>
    intro dDelta dIdx dItem outs u
    by_cases hc : ∃ it ∈ outs, it.type_ = "function_call"
    · have hb : (outs.any fun item => item.type_ == "function_call") = true := by
        simp [List.any_eq_true]
        exact hc
      simp [translateStream, translateStep, hb, hc]
    · have hb : (outs.any fun item => item.type_ == "function_call") = false := by
        simp [List.any_eq_true]
        simpa using hc
      simp [translateStream, translateStep, hb, hc]
  case malformed =>
    intro eventName
    simp [translateStream, translateStep]

/-- Enumeration of the outcomes of `proxyAuth`: direct binding, direct-key
503, pool binding, pool-exhausted 503, or 401. -/
theorem proxyAuth_enum (env : ConsoleEnv) (poolCfg : Option PoolConfig)
    (rr : Nat) (token : Option String) :
    (∃ t acc, token = some t ∧ acc ∈ env.accounts ∧ acc.apiKey = t ∧
      (getInstanceState env.registry acc.id).isSome = true ∧
      (proxyAuth env poolCfg rr token).1 = .direct acc.id)
    ∨ (∃ t acc, token = some t ∧ acc ∈ env.accounts ∧ acc.apiKey = t ∧
      (getInstanceState env.registry acc.id).isSome = false ∧
      (proxyAuth env poolCfg rr token).1
        = .failure 503 (.plain "Account instance not running"))
    ∨ (∃ cfg acc rr1, poolCfg = some cfg ∧ cfg.enabled = true ∧
      token = some cfg.apiKey ∧ (∀ a ∈ env.accounts, a.apiKey ≠ cfg.apiKey) ∧
      selectAccount env cfg.strategy [] rr = (some acc, rr1) ∧
      proxyAuth env poolCfg rr token = (.pool acc.id cfg.strategy, rr1))
    ∨ (∃ cfg rr1, poolCfg = some cfg ∧ cfg.enabled = true ∧
      token = some cfg.apiKey ∧ (∀ a ∈ env.accounts, a.apiKey ≠ cfg.apiKey) ∧
      selectAccount env cfg.strategy [] rr = (none, rr1) ∧
      (proxyAuth env poolCfg rr token).1
        = .failure 503 (.plain "No available accounts in pool"))
    ∨ ((∀ t, token = some t → ∀ a ∈ env.accounts, a.apiKey ≠ t) ∧
      (∀ cfg, poolCfg = some cfg → cfg.enabled = true → token ≠ some cfg.apiKey) ∧
      (proxyAuth env poolCfg rr token).1 = .failure 401 (.plain "Invalid API key")) := by
  cases token with
  | none =>
    refine Or.inr (Or.inr (Or.inr (Or.inr ⟨?_, ?_, ?_⟩)))
    · intro t ht; cases ht
    · intro cfg hcfg hen hne; cases hne
    · cases poolCfg <;> rfl
  | some t =>
    cases hf : env.accounts.find? (fun a => a.apiKey == t) with
    | some account =>
      have hmem := List.mem_of_find?_eq_some hf
      have hkey : account.apiKey = t := by
        have hp := List.find?_some hf
        simpa using hp
      cases hst : (getInstanceState env.registry account.id).isSome with
      | true =>
        exact Or.inl ⟨t, account, rfl, hmem, hkey, hst, by simp [proxyAuth, hf, hst]⟩
      | false =>
        exact Or.inr (Or.inl ⟨t, account, rfl, hmem, hkey, hst,
          by simp [proxyAuth, hf, hst]⟩)
    | none =>
      have hnone : ∀ a ∈ env.accounts, a.apiKey ≠ t := by
        intro a ha
        have := List.find?_eq_none.mp hf a ha
        simpa using this
      cases poolCfg with
      | none =>
        refine Or.inr (Or.inr (Or.inr (Or.inr ⟨?_, ?_, ?_⟩)))
        · intro t0 ht0 a ha
          cases ht0
          exact hnone a ha
        · intro cfg hcfg; cases hcfg
        · simp [proxyAuth, proxyAuthPool, hf]
      | some cfg =>
        by_cases hen : cfg.enabled = true
        · by_cases ht : t = cfg.apiKey
          · rcases hsel : selectAccount env cfg.strategy [] rr with ⟨oacc, rr1⟩
            cases oacc with
            | some acc =>
              refine Or.inr (Or.inr (Or.inl ⟨cfg, acc, rr1, rfl, hen, by rw [ht], ?_, hsel, ?_⟩))
              · intro a ha
                rw [← ht]
                exact hnone a ha
              · have hf2 : env.accounts.find? (fun a => a.apiKey == cfg.apiKey) = none := by
                  rw [← ht]; exact hf
                simp [proxyAuth, proxyAuthPool, hf2, hen, ht, hsel]
            | none =>
              refine Or.inr (Or.inr (Or.inr (Or.inl ⟨cfg, rr1, rfl, hen, by rw [ht], ?_, hsel, ?_⟩)))
              · intro a ha
                rw [← ht]
                exact hnone a ha
              · have hf2 : env.accounts.find? (fun a => a.apiKey == cfg.apiKey) = none := by
                  rw [← ht]; exact hf
                simp [proxyAuth, proxyAuthPool, hf2, hen, ht, hsel]
          · refine Or.inr (Or.inr (Or.inr (Or.inr ⟨?_, ?_, ?_⟩)))
            · intro t0 ht0 a ha
              cases ht0
              exact hnone a ha
            · intro cfg0 hcfg0 hen0 hne
              cases hcfg0
              exact ht (by injection hne)
            · have hbeq : (t == cfg.apiKey) = false := by
                simpa using ht
              simp [proxyAuth, proxyAuthPool, hf, hen, hbeq]
        · refine Or.inr (Or.inr (Or.inr (Or.inr ⟨?_, ?_, ?_⟩)))
          · intro t0 ht0 a ha
            cases ht0
            exact hnone a ha
          · intro cfg0 hcfg0 hen0 hne
            cases hcfg0
            exact hen hen0
          · have hen2 : cfg.enabled = false := by
              simpa using hen
            simp [proxyAuth, proxyAuthPool, hf, hen2]

/-- C3 (amended): `proxyAuth` yields exactly one of five outcomes — a direct
binding when the token equals an account's key and that account's instance
state exists; a 503 (instance not running) with no fallback substitution when
the token equals an account's key but the instance is not running; a
pool-mode binding only when the pool is enabled and the token equals the pool
key; a 503 (no available accounts) when the pool key matches but the selector
returns no candidate; and a 401 when the token matches neither an account key
nor the enabled pool's key. -/
theorem proxy_auth_outcomes (env : ConsoleEnv) (poolCfg : Option PoolConfig)
    (rr : Nat) (token : Option String) :
    (∃ t acc, token = some t ∧ acc ∈ env.accounts ∧ acc.apiKey = t ∧
      (getInstanceState env.registry acc.id).isSome = true ∧
      (proxyAuth env poolCfg rr token).1 = .direct acc.id)
    ∨ (∃ t acc, token = some t ∧ acc ∈ env.accounts ∧ acc.apiKey = t ∧
      (getInstanceState env.registry acc.id).isSome = false ∧
      (proxyAuth env poolCfg rr token).1
        = .failure 503 (.plain "Account instance not running"))
    ∨ (∃ cfg acc rr1, poolCfg = some cfg ∧ cfg.enabled = true ∧
      token = some cfg.apiKey ∧ (∀ a ∈ env.accounts, a.apiKey ≠ cfg.apiKey) ∧
      selectAccount env cfg.strategy [] rr = (some acc, rr1) ∧
      proxyAuth env poolCfg rr token = (.pool acc.id cfg.strategy, rr1))
    ∨ (∃ cfg rr1, poolCfg = some cfg ∧ cfg.enabled = true ∧
      token = some cfg.apiKey ∧ (∀ a ∈ env.accounts, a.apiKey ≠ cfg.apiKey) ∧
      selectAccount env cfg.strategy [] rr = (none, rr1) ∧
      (proxyAuth env poolCfg rr token).1
        = .failure 503 (.plain "No available accounts in pool"))
    ∨ ((∀ t, token = some t → ∀ a ∈ env.accounts, a.apiKey ≠ t) ∧
      (∀ cfg, poolCfg = some cfg → cfg.enabled = true → token ≠ some cfg.apiKey) ∧
      (proxyAuth env poolCfg rr token).1 = .failure 401 (.plain "Invalid API key")) :=
  proxyAuth_enum env poolCfg rr token

/-- Counterexample for C3 as stated: with no accounts, an enabled pool and
the correct pool key, `proxyAuth` answers 503 "No available accounts in
pool" — an outcome that is neither a binding (direct or pool) nor the 401
response nor the claim's 503 (instance not running). -/
theorem proxy_auth_claim_counterexample :
    proxyAuth envEmpty (some poolCfgX) 0 (some "cpp-key")
      = (.failure 503 (.plain "No available accounts in pool"), 0)
    ∧ (AuthOutcome.failure 503 (.plain "No available accounts in pool")).isDirect = false
    ∧ (AuthOutcome.failure 503 (.plain "No available accounts in pool")).isPool = false
    ∧ AuthOutcome.failure 503 (.plain "No available accounts in pool")
        ≠ .failure 401 (.plain "Invalid API key")
    ∧ AuthOutcome.failure 503 (.plain "No available accounts in pool")
        ≠ .failure 503 (.plain "Account instance not running") := by
  refine ⟨by decide, rfl, rfl, by decide, by decide⟩

/-- C9 (amended): failure responses produced by the proxy handlers carry the
nested body `{ error: { message, type: "error" } }`, with the upstream HTTP
status forwarded when the upstream answered and 500 when the handler caught
an exception; the router's own auth/pool failures (401 invalid key, 503
instance not running, 503 no available accounts) instead carry the flat body
`{ error: <string> }`. -/
theorem error_body_shapes :
    (∀ (streamFlag : Bool) (upstream : Except String Upstream) (s : Nat) (b : ErrBody),
      completionsHandler streamFlag upstream = .failure s b →
      ∃ m, b = .detailed m "error")
    ∧ (∀ (streamFlag : Bool) (m : String),
      completionsHandler streamFlag (.error m) = .failure 500 (.detailed m "error"))
    ∧ (∀ (streamFlag : Bool) (u : Upstream), u.ok = false →
      completionsHandler streamFlag (.ok u) = .failure u.status (.detailed u.bodyText "error"))
    ∧ (∀ (env : ConsoleEnv) (poolCfg : Option PoolConfig) (rr : Nat)
        (token : Option String) (s : Nat) (b : ErrBody),
      (proxyAuth env poolCfg rr token).1 = .failure s b →
      (∃ m, b = .plain m) ∧ (s = 401 ∨ s = 503)) := by
  refine ⟨?shape, ?caught, ?forwarded, ?auth⟩
  case shape =>
    intro streamFlag upstream s b h
    cases upstream with
    | error m =>
      simp only [completionsHandler] at h
      exact ⟨m, by injection h with h1 h2; exact h2.symm⟩
    | ok u =>
      by_cases ho : u.ok
      · by_cases hs : streamFlag = true <;> simp [completionsHandler, ho, hs] at h
      · have ho2 : u.ok = false := by simpa using ho
        simp only [completionsHandler, ho2, Bool.not_false, if_true] at h
        exact ⟨u.bodyText, by injection h with h1 h2; exact h2.symm⟩
  case caught =>
    intro streamFlag m
    rfl
  case forwarded =>
    intro streamFlag u ho
    simp [completionsHandler, ho]
  case auth =>
    intro env poolCfg rr token s b h
    rcases proxyAuth_enum env poolCfg rr token with
      ⟨t, acc, _, _, _, _, hout⟩ | ⟨t, acc, _, _, _, _, hout⟩ |
      ⟨cfg, acc, rr1, _, _, _, _, _, hout⟩ | ⟨cfg, rr1, _, _, _, _, _, hout⟩ |
      ⟨_, _, hout⟩
    · rw [hout] at h; cases h
    · rw [hout] at h
      injection h with h1 h2
      exact ⟨⟨"Account instance not running", h2.symm⟩, Or.inr h1.symm⟩
    · rw [hout] at h; cases h
    · rw [hout] at h
      injection h with h1 h2
      exact ⟨⟨"No available accounts in pool", h2.symm⟩, Or.inr h1.symm⟩
    · rw [hout] at h
      injection h with h1 h2
      exact ⟨⟨"Invalid API key", h2.symm⟩, Or.inl h1.symm⟩

/-- Witness for C9: a caught exception produces a 500 with the nested body;
a 502 upstream is forwarded with the nested body; the 401 of `proxyAuth` is
a flat-body failure with status 401. -/
theorem error_body_shapes_witness :
    completionsHandler false (.error "boom") = .failure 500 (.detailed "boom" "error")
    ∧ completionsHandler false (.ok ⟨502, false, "bad gateway"⟩)
        = .failure 502 (.detailed "bad gateway" "error")
    ∧ (∃ m, ErrBody.plain "Invalid API key" = .plain m)
    ∧ (401 = 401 ∨ 401 = 503) := by
  refine ⟨?caught, ?forwarded, ?flat, ?status⟩
  case caught => exact error_body_shapes.2.1 false "boom"
  case forwarded => exact error_body_shapes.2.2.1 false ⟨502, false, "bad gateway"⟩ rfl
  case flat =>
    exact (error_body_shapes.2.2.2 envEmpty none 0 (some "zzz") 401
      (.plain "Invalid API key") (by decide)).1
  case status =>
    exact (error_body_shapes.2.2.2 envEmpty none 0 (some "zzz") 401
      (.plain "Invalid API key") (by decide)).2

/-- Counterexample for C9 as stated: the 401 answered by `proxyAuth` is a
failure response to the client whose body is the flat `{ error: <string> }`
shape, not `{ error: { message, type } }`. -/
theorem error_body_claim_counterexample :
    (proxyAuth envEmpty none 0 (some "zzz")).1 = .failure 401 (.plain "Invalid API key")
    ∧ (ErrBody.plain "Invalid API key").isDetailed = false := by
  exact ⟨by decide, rfl⟩

/-- A member of the candidate list built by `selectAccount` is a running
account not in the exclusion set. -/
theorem mem_candidates (env : ConsoleEnv) (exclude : List String) (a : Account)
    (h : a ∈ (if exclude.isEmpty then getRunningAccounts env
              else (getRunningAccounts env).filter (fun a => !(exclude.contains a.id)))) :
    a ∈ getRunningAccounts env ∧ exclude.contains a.id = false := by
  by_cases he : exclude.isEmpty
  · rw [if_pos he] at h
    have hnil : exclude = [] := List.isEmpty_iff.mp he
    subst hnil
    exact ⟨h, rfl⟩
  · rw [if_neg he] at h
    have hm := List.mem_filter.mp h
    exact ⟨hm.1, by simpa using hm.2⟩

/-- C6: when no candidate has cached usage, strategy `quota` picks the same
account and advances the shared cursor exactly as `round-robin` would over
the same candidate set. -/
theorem quota_without_usage_is_round_robin (env : ConsoleEnv)
    (exclude : List String) (rr : Nat)
    (h : ∀ a ∈ getRunningAccounts env, exclude.contains a.id = false →
      env.usage a.id = none) :
    selectAccount env .quota exclude rr = selectAccount env .roundRobin exclude rr := by
  unfold selectAccount
  by_cases h0 : (if exclude.isEmpty then getRunningAccounts env
      else (getRunningAccounts env).filter (fun a => !(exclude.contains a.id))).length = 0
  · rw [dif_pos h0, dif_pos h0]
  · rw [dif_neg h0, dif_neg h0]
    rcases hs : ((if exclude.isEmpty then getRunningAccounts env
        else (getRunningAccounts env).filter (fun a => !(exclude.contains a.id))).map
          (fun a => (a, quotaScore env a))).mergeSort (fun x y => decide (y.2 ≤ x.2))
      with _ | ⟨top, tail⟩
    · exfalso
      have hperm := List.mergeSort_perm
        ((if exclude.isEmpty then getRunningAccounts env
          else (getRunningAccounts env).filter (fun a => !(exclude.contains a.id))).map
            (fun a => (a, quotaScore env a))) (fun x y => decide (y.2 ≤ x.2))
      rw [hs] at hperm
      have hnil := hperm.symm.eq_nil
      rw [List.map_eq_nil_iff] at hnil
      rw [hnil] at h0
      exact h0 rfl
    · have htop : top ∈ ((if exclude.isEmpty then getRunningAccounts env
          else (getRunningAccounts env).filter (fun a => !(exclude.contains a.id))).map
            (fun a => (a, quotaScore env a))) := by
        have : top ∈ (((if exclude.isEmpty then getRunningAccounts env
            else (getRunningAccounts env).filter (fun a => !(exclude.contains a.id))).map
              (fun a => (a, quotaScore env a))).mergeSort (fun x y => decide (y.2 ≤ x.2))) := by
          rw [hs]; exact List.mem_cons_self _ _
        exact List.mem_mergeSort.mp this
      rcases List.mem_map.mp htop with ⟨a, ha, hpair⟩
      have hcand := mem_candidates env exclude a ha
      have hscore : quotaScore env a = -1 := by
        unfold quotaScore
        rw [h a hcand.1 hcand.2]
      have htop2 : top.2 = -1 := by
        rw [← hpair, hscore]
      simp only [hs, htop2]
      norm_num

/-- Witness for C6: over the three running fixture accounts with an empty
usage cache, `quota` and `round-robin` agree from cursor 0. -/
theorem quota_without_usage_is_round_robin_witness :
    selectAccount envW .quota [] 0 = selectAccount envW .roundRobin [] 0 :=
  quota_without_usage_is_round_robin envW [] 0 (fun _ _ _ => rfl)

/-- When every account is enabled and running, the candidate filter is the
identity. -/
theorem getRunningAccounts_eq_accounts (env : ConsoleEnv)
    (hEn : ∀ a ∈ env.accounts, a.enabled = true)
    (hRun : ∀ a ∈ env.accounts, (getInstanceState env.registry a.id).isSome = true) :
    getRunningAccounts env = env.accounts := by
  unfold getRunningAccounts
  rw [List.filter_eq_self]
  intro a ha
  simp [hEn a ha, hRun a ha]

/-- Round-robin pick over a fully running account list: index is the cursor
modulo the list length, and the cursor advances by one (modulo the length). -/
theorem selectAccount_round_robin_pick (env : ConsoleEnv)
    (hEn : ∀ a ∈ env.accounts, a.enabled = true)
    (hRun : ∀ a ∈ env.accounts, (getInstanceState env.registry a.id).isSome = true)
    (hne : env.accounts.length ≠ 0) (j : Nat) :
    selectAccount env .roundRobin [] j
      = (some (env.accounts.get
          ⟨j % env.accounts.length, Nat.mod_lt _ (Nat.pos_of_ne_zero hne)⟩),
         (j % env.accounts.length + 1) % env.accounts.length) := by
  have hg := getRunningAccounts_eq_accounts env hEn hRun
  unfold selectAccount
  simp only [hg, List.isEmpty_nil, if_pos]
  rw [dif_neg hne]
  have hmem : env.accounts.get
      ⟨j % env.accounts.length, Nat.mod_lt _ (Nat.pos_of_ne_zero hne)⟩ ∈ env.accounts :=
    List.get_mem _ _ _
  have hsome := hRun _ hmem
  rcases Option.isSome_iff_exists.mp hsome with ⟨st, hst⟩
  rw [List.get_eq_getElem] at hst
  simp [finishPick, hg, hst]

/-- Shape of `k` consecutive round-robin selections over a fully running
account list: the `i`-th pick is the account at index `(start + i)` modulo
the list length. -/
theorem runRoundRobin_ofFn (env : ConsoleEnv)
    (hEn : ∀ a ∈ env.accounts, a.enabled = true)
    (hRun : ∀ a ∈ env.accounts, (getInstanceState env.registry a.id).isSome = true)
    (hne : env.accounts.length ≠ 0) :
    ∀ (k j : Nat), (runRoundRobin env k j).1
      = List.ofFn (fun i : Fin k => env.accounts.get
          ⟨(j + i.1) % env.accounts.length, Nat.mod_lt _ (Nat.pos_of_ne_zero hne)⟩) := by
  intro k
  induction k with
  | zero => intro j; simp [runRoundRobin]
  | succ k ih =>
    intro j
    have hsel := selectAccount_round_robin_pick env hEn hRun hne j
    have hidx : ∀ m : Nat,
        ((j % env.accounts.length + 1) % env.accounts.length + m) % env.accounts.length
          = (j + (m + 1)) % env.accounts.length := by
      intro m
      rw [Nat.mod_add_mod, Nat.add_assoc, Nat.mod_add_mod, Nat.add_comm 1 m]
    simp only [runRoundRobin, hsel]
    rw [ih ((j % env.accounts.length + 1) % env.accounts.length)]
    rw [List.ofFn_succ]
    congr 1
    apply congrArg
    funext i
    apply congrArg
    apply Fin.ext
    simp only [Fin.val_succ]
    exact hidx i.1

/-- C5: over a fixed set of `N` enabled running accounts and no exclusions,
`N` consecutive round-robin selections return the account list rotated to
the cursor position — each account exactly once, in the stable rotating
order — and each single call picks index `cursor mod N` and advances the
shared cursor by one modulo `N`. -/
theorem round_robin_fairness (env : ConsoleEnv) (rr : Nat)
    (hEn : ∀ a ∈ env.accounts, a.enabled = true)
    (hRun : ∀ a ∈ env.accounts, (getInstanceState env.registry a.id).isSome = true)
    (hne : env.accounts.length ≠ 0)
    (hids : (env.accounts.map Account.id).Nodup) :
    (runRoundRobin env env.accounts.length rr).1
      = env.accounts.rotate (rr % env.accounts.length)
    ∧ (runRoundRobin env env.accounts.length rr).1.Perm env.accounts
    ∧ (∀ a ∈ env.accounts, (runRoundRobin env env.accounts.length rr).1.count a = 1)
    ∧ (∀ j, selectAccount env .roundRobin [] j
        = (env.accounts.get? (j % env.accounts.length),
           (j % env.accounts.length + 1) % env.accounts.length)) := by
  have hrot : (runRoundRobin env env.accounts.length rr).1
      = env.accounts.rotate (rr % env.accounts.length) := by
    rw [runRoundRobin_ofFn env hEn hRun hne env.accounts.length rr]
    apply List.ext_get
    · rw [List.length_ofFn, List.length_rotate]
    · intro i h1 h2
      rw [List.get_ofFn, List.get_rotate]
      apply congrArg
      apply Fin.ext
      simp only [Fin.coe_cast]
      rw [Nat.add_comm (i : Nat) (rr % env.accounts.length), Nat.mod_add_mod,
        Nat.add_comm rr (i : Nat)]
  have hperm : (runRoundRobin env env.accounts.length rr).1.Perm env.accounts := by
    rw [hrot]
    exact List.rotate_perm env.accounts (rr % env.accounts.length)
  refine ⟨hrot, hperm, ?count, ?pick⟩
  case count =>
    intro a ha
    rw [hperm.count_eq]
    exact List.count_eq_one_of_mem (List.Nodup.of_map _ hids) ha
  case pick =>
    intro j
    rw [selectAccount_round_robin_pick env hEn hRun hne j]
    have hlt : j % env.accounts.length < env.accounts.length :=
      Nat.mod_lt _ (Nat.pos_of_ne_zero hne)
    rw [List.get?_eq_get hlt]

/-- Witness for C5 over the three fixture accounts from cursor 1: the run
visits `[a2, a3, a1]` — the rotation by one — and each account once. -/
theorem round_robin_fairness_witness :
    (runRoundRobin envW 3 1).1 = envW.accounts.rotate (1 % 3)
    ∧ (∀ a ∈ envW.accounts, (runRoundRobin envW 3 1).1.count a = 1) := by
  have h := round_robin_fairness envW 1 (by decide)
    (by decide) (by decide) (by decide)
  exact ⟨h.1, h.2.2.1⟩

/-- A successful `finishPick` returns exactly the offered account with the
offered cursor. -/
theorem finishPick_some (env : ConsoleEnv) (a : Account) (rr : Nat)
    (acc : Account) (rr1 : Nat) (h : finishPick env a rr = (some acc, rr1)) :
    acc = a ∧ rr1 = rr := by
  unfold finishPick at h
  cases hg : getInstanceState env.registry a.id with
  | some st =>
    rw [hg] at h
    injection h with h1 h2
    injection h1 with h1
    exact ⟨h1.symm, h2.symm⟩
  | none =>
    rw [hg] at h
    injection h with h1 h2
    cases h1

/-- An account returned by `selectAccount` is a running account outside the
exclusion set. -/
theorem selectAccount_some (env : ConsoleEnv) (strategy : Strategy)
    (exclude : List String) (rr rr1 : Nat) (acc : Account)
    (h : selectAccount env strategy exclude rr = (some acc, rr1)) :
    acc ∈ getRunningAccounts env ∧ exclude.contains acc.id = false := by
  unfold selectAccount at h
  set cands := (if exclude.isEmpty then getRunningAccounts env
      else (getRunningAccounts env).filter (fun a => !(exclude.contains a.id)))
    with hcands
  by_cases h0 : cands.length = 0
  · rw [dif_pos h0] at h; cases h
  · rw [dif_neg h0] at h
    have hin : acc ∈ cands := by
      cases strategy
      case priority =>
        rcases hs : cands.mergeSort (fun x y => decide (y.priority ≤ x.priority))
          with _ | ⟨top, tail⟩
        · simp only [hs] at h
          simp at h
        · simp only [hs] at h
          have hfin := finishPick_some env top rr acc rr1 h
          have htop : top ∈ cands.mergeSort (fun x y => decide (y.priority ≤ x.priority)) := by
            rw [hs]; exact List.mem_cons_self _ _
          rw [hfin.1]
          exact List.mem_mergeSort.mp htop
      case quota =>
        rcases hs : (cands.map (fun a => (a, quotaScore env a))).mergeSort
            (fun x y => decide (y.2 ≤ x.2)) with _ | ⟨top, tail⟩
        · simp only [hs] at h
          simp at h
        · simp only [hs] at h
          by_cases hneg : top.2 < 0
          · rw [if_pos hneg] at h
            have hfin := finishPick_some env _ _ acc rr1 h
            rw [hfin.1]
            exact List.get_mem _ _ _
          · rw [if_neg hneg] at h
            have hfin := finishPick_some env top.1 rr acc rr1 h
            have htop : top ∈ cands.map (fun a => (a, quotaScore env a)) := by
              apply List.mem_mergeSort.mp
              rw [hs]
              exact List.mem_cons_self _ _
            rcases List.mem_map.mp htop with ⟨a, ha, hpair⟩
            rw [hfin.1, ← hpair]
            exact ha
      case roundRobin =>
        have hfin := finishPick_some env _ _ acc rr1 h
        rw [hfin.1]
        exact List.get_mem _ _ _
    have hin2 : acc ∈ (if exclude.isEmpty then getRunningAccounts env
        else (getRunningAccounts env).filter (fun a => !(exclude.contains a.id))) := by
      rw [← hcands]
      exact hin
    exact mem_candidates env exclude acc hin2

/-- Filtering strictly shrinks a list that contains an element the predicate
rejects. -/
theorem length_filter_lt_of_mem {α : Type} {l : List α} {p : α → Bool} {a : α}
    (ha : a ∈ l) (hp : p a = false) : (l.filter p).length < l.length := by
  induction l with
  | nil => cases ha
  | cons x xs ih =>
    rcases List.mem_cons.mp ha with rfl | hxs
    · rw [List.filter_cons, hp]
      simp only [Bool.false_eq_true, if_neg]
      exact Nat.lt_succ_of_le (List.length_filter_le p xs)
    · rw [List.filter_cons]
      cases hpx : p x
      · simp only [Bool.false_eq_true, if_neg]
        exact Nat.lt_succ_of_lt (ih hxs)
      · simp only [if_pos]
        exact Nat.succ_lt_succ (ih hxs)

/-- Excluding a still-available running account strictly shrinks the
candidate pool. -/
theorem excluded_candidates_decrease (env : ConsoleEnv) (exclude : List String)
    (acc : Account) (hmem : acc ∈ getRunningAccounts env)
    (hnotex : exclude.contains acc.id = false) :
    ((getRunningAccounts env).filter
        (fun a => !((acc.id :: exclude).contains a.id))).length
      < ((getRunningAccounts env).filter (fun a => !(exclude.contains a.id))).length := by
  have hpred : ∀ b ∈ getRunningAccounts env,
      (!((acc.id :: exclude).contains b.id))
        = ((!decide (b.id = acc.id)) && !(exclude.contains b.id)) := by
    intro b _
    simp [List.contains_cons, Bool.not_or]
  rw [List.filter_congr hpred, ← List.filter_filter]
  apply length_filter_lt_of_mem
  · exact List.mem_filter.mpr ⟨hmem, by simpa using hnotex⟩
  · simp

/-- Invariants of the retry loop's invocation list: every invoked account
was outside the exclusion set at its turn and is a running account, and no
account is invoked twice. -/
theorem retryLoop_invocations (env : ConsoleEnv) (handler : String → HttpResponse)
    (strategy : Strategy) (fr : HttpResponse) :
    ∀ (fuel : Nat) (exclude : List String) (rr : Nat),
      (∀ x ∈ (retryLoop env handler strategy fr fuel exclude rr).2,
        exclude.contains x = false ∧ ∃ a ∈ getRunningAccounts env, a.id = x)
      ∧ (retryLoop env handler strategy fr fuel exclude rr).2.Nodup := by
  intro fuel
  induction fuel with
  | zero =>
    intro exclude rr
    constructor
    · intro x hx
      simp [retryLoop] at hx
    · simp [retryLoop]
  | succ fuel ih =>
    intro exclude rr
    rcases hsel : selectAccount env strategy exclude rr with ⟨oacc, rr1⟩
    cases oacc with
    | none =>
      constructor
      · intro x hx
        simp [retryLoop, hsel] at hx
      · simp [retryLoop, hsel]
    | some acc =>
      have hacc := selectAccount_some env strategy exclude rr rr1 acc hsel
      by_cases hretry : isRetryableStatus (handler acc.id).status = true
      · have ihx := ih (acc.id :: exclude) rr1
        constructor
        · intro x hx
          simp only [retryLoop, hsel, hretry, if_pos] at hx
          rcases List.mem_cons.mp hx with rfl | hx2
          · exact ⟨hacc.2, acc, hacc.1, rfl⟩
          · have h1 := (ihx.1 x hx2).1
            rw [List.contains_cons] at h1
            constructor
            · exact (Bool.or_eq_false_iff.mp h1).2
            · exact (ihx.1 x hx2).2
        · simp only [retryLoop, hsel, hretry, if_pos]
          rw [List.nodup_cons]
          constructor
          · intro hmem2
            have h1 := (ihx.1 acc.id hmem2).1
            rw [List.contains_cons] at h1
            have := (Bool.or_eq_false_iff.mp h1).1
            simp at this
          · exact ihx.2
      · constructor
        · intro x hx
          simp only [retryLoop, hsel, hretry, if_neg] at hx
          simp at hx
          subst hx
          exact ⟨hacc.2, acc, hacc.1, rfl⟩
        · simp [retryLoop, hsel, hretry]

/-- When every account's response is retryable, the loop always falls back
to the first failing response. -/
theorem retryLoop_all_retryable (env : ConsoleEnv) (handler : String → HttpResponse)
    (strategy : Strategy) (fr : HttpResponse)
    (hall : ∀ accountId, isRetryableStatus (handler accountId).status = true) :
    ∀ (fuel : Nat) (exclude : List String) (rr : Nat),
      (retryLoop env handler strategy fr fuel exclude rr).1 = fr := by
  intro fuel
  induction fuel with
  | zero => intro exclude rr; simp [retryLoop]
  | succ fuel ih =>
    intro exclude rr
    rcases hsel : selectAccount env strategy exclude rr with ⟨oacc, rr1⟩
    cases oacc with
    | none => simp [retryLoop, hsel]
    | some acc => simp [retryLoop, hsel, hall acc.id, ih]

/-- The loop's result is either the first failing response or the
non-retryable response of one of the invoked accounts. -/
theorem retryLoop_result (env : ConsoleEnv) (handler : String → HttpResponse)
    (strategy : Strategy) (fr : HttpResponse) :
    ∀ (fuel : Nat) (exclude : List String) (rr : Nat),
      (retryLoop env handler strategy fr fuel exclude rr).1 = fr
      ∨ ∃ x ∈ (retryLoop env handler strategy fr fuel exclude rr).2,
          (retryLoop env handler strategy fr fuel exclude rr).1 = handler x
          ∧ isRetryableStatus (handler x).status = false := by
  intro fuel
  induction fuel with
  | zero => intro exclude rr; exact Or.inl (by simp [retryLoop])
  | succ fuel ih =>
    intro exclude rr
    rcases hsel : selectAccount env strategy exclude rr with ⟨oacc, rr1⟩
    cases oacc with
    | none => exact Or.inl (by simp [retryLoop, hsel])
    | some acc =>
      by_cases hretry : isRetryableStatus (handler acc.id).status = true
      · rcases ih (acc.id :: exclude) rr1 with h1 | ⟨x, hx, he, hs⟩
        · exact Or.inl (by simp [retryLoop, hsel, hretry, h1])
        · refine Or.inr ⟨x, ?_, ?_, hs⟩
          · simp only [retryLoop, hsel, hretry, if_pos]
            exact List.mem_cons_of_mem _ hx
          · simp only [retryLoop, hsel, hretry, if_pos]
            exact he
      · refine Or.inr ⟨acc.id, ?_, ?_, ?_⟩
        · simp [retryLoop, hsel, hretry]
        · simp [retryLoop, hsel, hretry]
        · simpa using hretry

/-- Any fuel beyond the number of not-yet-excluded running candidates gives
the same result: the fuelled loop agrees with the unbounded source loop. -/
theorem retryLoop_fuel_independent (env : ConsoleEnv)
    (handler : String → HttpResponse) (strategy : Strategy) (fr : HttpResponse) :
    ∀ (f1 f2 : Nat) (exclude : List String) (rr : Nat),
      ((getRunningAccounts env).filter (fun a => !(exclude.contains a.id))).length < f1 →
      ((getRunningAccounts env).filter (fun a => !(exclude.contains a.id))).length < f2 →
      retryLoop env handler strategy fr f1 exclude rr
        = retryLoop env handler strategy fr f2 exclude rr := by
  intro f1
  induction f1 with
  | zero =>
    intro f2 exclude rr h1 h2
    omega
  | succ f1 ih =>
    intro f2 exclude rr h1 h2
    cases f2 with
    | zero => omega
    | succ f2 =>
      rcases hsel : selectAccount env strategy exclude rr with ⟨oacc, rr1⟩
      cases oacc with
      | none => simp [retryLoop, hsel]
      | some acc =>
        have hacc := selectAccount_some env strategy exclude rr rr1 acc hsel
        have hdec := excluded_candidates_decrease env exclude acc hacc.1 hacc.2
        by_cases hretry : isRetryableStatus (handler acc.id).status = true
        · simp only [retryLoop, hsel, hretry, if_pos]
          rw [ih f2 (acc.id :: exclude) rr1 (by omega) (by omega)]
        · simp [retryLoop, hsel, hretry]

/-- C1: in pool mode, a non-retryable first response is returned immediately
after a single handler invocation; with every previously tried account in
the exclusion set, the handler runs at most once per account (the invocation
list has no duplicates, and every retry invocation is a running account);
when every account answers a retryable status — so the selector eventually
returns no candidate — the first failing response is returned unchanged; and
in general the result is either the first response or a non-retryable
response of one of the invoked accounts. -/
theorem pool_retry_exclusion (env : ConsoleEnv) (handler : String → HttpResponse)
    (strategy : Strategy) (boundAccountId : String) (rr : Nat) :
    (isRetryableStatus (handler boundAccountId).status = false →
      withPoolRetry env handler strategy true boundAccountId rr
        = (handler boundAccountId, [boundAccountId]))
    ∧ ((∀ accountId, isRetryableStatus (handler accountId).status = true) →
      (withPoolRetry env handler strategy true boundAccountId rr).1
        = handler boundAccountId)
    ∧ (withPoolRetry env handler strategy true boundAccountId rr).2.Nodup
    ∧ (∀ x ∈ (withPoolRetry env handler strategy true boundAccountId rr).2,
        x = boundAccountId ∨ ∃ a ∈ getRunningAccounts env, a.id = x)
    ∧ ((withPoolRetry env handler strategy true boundAccountId rr).1
          = handler boundAccountId
      ∨ ∃ x ∈ (withPoolRetry env handler strategy true boundAccountId rr).2,
          (withPoolRetry env handler strategy true boundAccountId rr).1 = handler x
          ∧ isRetryableStatus (handler x).status = false) := by
  by_cases hfr : isRetryableStatus (handler boundAccountId).status = true
  · have hbody : withPoolRetry env handler strategy true boundAccountId rr
        = ((retryLoop env handler strategy (handler boundAccountId)
            (env.accounts.length + 1) [boundAccountId] rr).1,
          boundAccountId
            :: (retryLoop env handler strategy (handler boundAccountId)
                (env.accounts.length + 1) [boundAccountId] rr).2) := by
      simp [withPoolRetry, hfr]
    have hinv := retryLoop_invocations env handler strategy (handler boundAccountId)
      (env.accounts.length + 1) [boundAccountId] rr
    refine ⟨?immediate, ?exhausted, ?nodup, ?running, ?result⟩
    case immediate =>
      intro hno
      rw [hno] at hfr
      cases hfr
    case exhausted =>
      intro hall
      rw [hbody]
      exact retryLoop_all_retryable env handler strategy (handler boundAccountId)
        hall (env.accounts.length + 1) [boundAccountId] rr
    case nodup =>
      rw [hbody]
      rw [List.nodup_cons]
      constructor
      · intro hmem
        have h1 := (hinv.1 boundAccountId hmem).1
        simp at h1
      · exact hinv.2
    case running =>
      intro x hx
      rw [hbody] at hx
      rcases List.mem_cons.mp hx with rfl | hx2
      · exact Or.inl rfl
      · exact Or.inr (hinv.1 x hx2).2
    case result =>
      rcases retryLoop_result env handler strategy (handler boundAccountId)
          (env.accounts.length + 1) [boundAccountId] rr with h1 | ⟨x, hx, he, hs⟩
      · exact Or.inl (by rw [hbody]; exact h1)
      · refine Or.inr ⟨x, ?_, ?_, hs⟩
        · rw [hbody]
          exact List.mem_cons_of_mem _ hx
        · rw [hbody]
          exact he
  · have hbody : withPoolRetry env handler strategy true boundAccountId rr
        = (handler boundAccountId, [boundAccountId]) := by
      simp [withPoolRetry, hfr]
    refine ⟨fun _ => hbody, fun hall => absurd (hall boundAccountId) hfr, ?_, ?_, ?_⟩
    · rw [hbody]
      simp
    · intro x hx
      rw [hbody] at hx
      simp at hx
      exact Or.inl hx
    · exact Or.inl (by rw [hbody])

/-- Witness for C1: three running accounts all answering 500 — the pool
request returns the first failure unchanged and no account is tried twice. -/
theorem pool_retry_exclusion_witness :
    (withPoolRetry envW handler500 .roundRobin true "a1" 0).1 = handler500 "a1"
    ∧ (withPoolRetry envW handler500 .roundRobin true "a1" 0).2.Nodup := by
  have h := pool_retry_exclusion envW handler500 .roundRobin "a1" 0
  exact ⟨h.2.1 (fun _ => rfl), h.2.2.1⟩

/-- Witness for C3 at a concrete input: instantiating the outcome
enumeration on the fixture context with account `a1`'s own key. -/
theorem proxy_auth_outcomes_witness :
    (∃ t acc, (some "cpa-k1" : Option String) = some t ∧ acc ∈ envW.accounts ∧ acc.apiKey = t ∧
      (getInstanceState envW.registry acc.id).isSome = true ∧
      (proxyAuth envW (some poolCfgX) 0 (some "cpa-k1")).1 = .direct acc.id)
    ∨ (∃ t acc, (some "cpa-k1" : Option String) = some t ∧ acc ∈ envW.accounts ∧ acc.apiKey = t ∧
      (getInstanceState envW.registry acc.id).isSome = false ∧
      (proxyAuth envW (some poolCfgX) 0 (some "cpa-k1")).1
        = .failure 503 (.plain "Account instance not running"))
    ∨ (∃ cfg acc rr1, (some poolCfgX : Option PoolConfig) = some cfg ∧ cfg.enabled = true ∧
      (some "cpa-k1" : Option String) = some cfg.apiKey ∧
      (∀ a ∈ envW.accounts, a.apiKey ≠ cfg.apiKey) ∧
      selectAccount envW cfg.strategy [] 0 = (some acc, rr1) ∧
      proxyAuth envW (some poolCfgX) 0 (some "cpa-k1") = (.pool acc.id cfg.strategy, rr1))
    ∨ (∃ cfg rr1, (some poolCfgX : Option PoolConfig) = some cfg ∧ cfg.enabled = true ∧
      (some "cpa-k1" : Option String) = some cfg.apiKey ∧
      (∀ a ∈ envW.accounts, a.apiKey ≠ cfg.apiKey) ∧
      selectAccount envW cfg.strategy [] 0 = (none, rr1) ∧
      (proxyAuth envW (some poolCfgX) 0 (some "cpa-k1")).1
        = .failure 503 (.plain "No available accounts in pool"))
    ∨ ((∀ t, (some "cpa-k1" : Option String) = some t → ∀ a ∈ envW.accounts, a.apiKey ≠ t) ∧
      (∀ cfg, (some poolCfgX : Option PoolConfig) = some cfg → cfg.enabled = true →
        (some "cpa-k1" : Option String) ≠ some cfg.apiKey) ∧
      (proxyAuth envW (some poolCfgX) 0 (some "cpa-k1")).1
        = .failure 401 (.plain "Invalid API key")) :=
  proxy_auth_outcomes envW (some poolCfgX) 0 (some "cpa-k1")
